import Mathlib

/-!
# Cinescenes — verification of the turn/challenge engine

A shallow embedding of the core game logic of the Cinescenes repository:
the placement resolver (`computeCorrectInterval`, `computeValidIntervals`),
the turn-resolution and reward algorithm of the two game screens
(`handleNextTurn005` for the current game screen, `handleNextTurn006` for the
older variant kept in the tree), the reveal-outcome computation including the
duplicate-year coin-back rule, the poll-loop turn-change reset, the lobby
join/start operations, and the join-code generator.

Identities (uuid strings in the source) are modelled as `Nat`; JS numbers
holding years and interval indices are modelled as `Int` (the challenge
sentinel is `-1`); the JS array sort `(a, b) => a - b` is modelled by
insertion sort `sortAsc`.
-/

namespace Cinescenes

/-- Turn.status values from the database model. -/
inductive TurnStatus where
  | drawing
  | placing
  | challenging
  | revealing
  | complete
deriving DecidableEq, Repr

/-- Game.status values from the database model. -/
inductive GameStatus where
  | lobby
  | active
  | finished
deriving DecidableEq, Repr

/-- A row of the `games` table (fields the core logic reads). -/
structure Game where
  id : Nat
  game_code : String
  status : GameStatus
deriving DecidableEq, Repr

/-- A row of the `players` table (fields the core logic reads); the order of
players in a list models the `order('created_at')` join order. -/
structure Player where
  id : Nat
  game_id : Nat
  display_name : String
  timeline : List Int
deriving DecidableEq, Repr

/-- A row of the `turns` table (fields the core logic reads). -/
structure Turn where
  id : Nat
  game_id : Nat
  active_player_id : Nat
  movie_id : Nat
  placed_interval : Option Int
  status : TurnStatus
deriving DecidableEq, Repr

/-- A row of the `challenges` table; `interval_index = -1` is the pending
sentinel written by `handleChallenge`. -/
structure ChallengeRec where
  id : Nat
  turn_id : Nat
  challenger_id : Nat
  interval_index : Int
deriving DecidableEq, Repr

/-- A row of the `movies` table (fields the core logic reads). -/
structure Movie where
  id : Nat
  year : Int
deriving DecidableEq, Repr

/-! ## Sorting: the model of the JS `[...xs].sort((a, b) => a - b)` -/

/-- Insert a year into an ascending list, keeping it ascending. -/
def insertSorted (y : Int) : List Int → List Int
  | [] => [y]
  | x :: xs => if y ≤ x then y :: x :: xs else x :: insertSorted y xs

/-- Ascending numeric sort, the model of `[...xs].sort((a, b) => a - b)`. -/
def sortAsc (l : List Int) : List Int :=
  l.foldr insertSorted []


/-! ## Placement Resolver -/

/-- `computeCorrectInterval` from the game screen: sort a copy of the
timeline ascending, then walk `idx` forward while `sorted[idx] < year`;
the resulting index is the answer.  The `while` loop is exactly
`takeWhile (· < year)` on the sorted copy. -/
def computeCorrectInterval (year : Int) (timeline : List Int) : Nat :=
  ((sortAsc timeline).takeWhile (fun x => decide (x < year))).length

/-- `computeValidIntervals` from the game screen: on a sorted copy, if the
year already occurs (JS `indexOf` gives the first occurrence, `-1` when
absent), both adjacent intervals are valid; otherwise the single
`computeCorrectInterval` result. -/
def computeValidIntervals (year : Int) (timeline : List Int) : List Nat :=
  let sorted := sortAsc timeline
  if year ∈ sorted then
    let dupIdx := sorted.indexOf year
    [dupIdx, dupIdx + 1]
  else
    [computeCorrectInterval year timeline]


/-! ## Turn Controller — resolution and advancement

Two variants of the game screen exist in the tree.  `…005` models the
current screen (resolution via `computeValidIntervals` membership, draw
exclusion from the `turns` table); `…006` models the older screen kept in
the tree (resolution by equality with `computeCorrectInterval`, draw
exclusion reconstructed from player timelines by year). -/

/-- `getActivePlayerTimeline`: the active player's timeline, `[]` when the
player row is not found (`?.timeline ?? []`). -/
def activeTimelineOf (players : List Player) (activeId : Nat) : List Int :=
  match players.find? (fun p => decide (p.id = activeId)) with
  | some p => p.timeline
  | none => []

/-- Winner selection of the current game screen's `handleNextTurn`:
the active player when the placed interval is in `computeValidIntervals`,
otherwise the first challenge whose committed interval (excluding the `-1`
pending sentinel) is in the valid intervals, otherwise nobody. -/
def resolveWinner005 (currentTurn : Turn) (challenges : List ChallengeRec)
    (movieYear : Int) (activeTimeline : List Int) : Option Nat :=
  let validIntervals :=
    (computeValidIntervals movieYear activeTimeline).map (fun n : Nat => (n : Int))
  let activeCorrect :=
    match currentTurn.placed_interval with
    | some pi => decide (pi ∈ validIntervals)
    | none => false
  let winningChallenger :=
    if activeCorrect then none
    else challenges.find? (fun c =>
      decide (c.interval_index ≠ -1 ∧ c.interval_index ∈ validIntervals))
  if activeCorrect then some currentTurn.active_player_id
  else winningChallenger.map ChallengeRec.challenger_id

/-- Winner selection of the older game screen's `handleNextTurn`: judged by
equality with the single `computeCorrectInterval` index. -/
def resolveWinner006 (currentTurn : Turn) (challenges : List ChallengeRec)
    (movieYear : Int) (activeTimeline : List Int) : Option Nat :=
  let correctInterval : Int := (computeCorrectInterval movieYear activeTimeline : Int)
  let activeCorrect :=
    match currentTurn.placed_interval with
    | some pi => decide (pi = correctInterval)
    | none => false
  let correctChallenger := challenges.find? (fun c =>
    decide (c.interval_index = correctInterval ∧ c.interval_index ≠ -1))
  if activeCorrect then some currentTurn.active_player_id
  else correctChallenger.map ChallengeRec.challenger_id

/-- The row inserted into `turns` for the next turn. -/
structure TurnInsert where
  game_id : Nat
  active_player_id : Nat
  movie_id : Nat
  status : TurnStatus
deriving DecidableEq, Repr

/-- The store writes performed by a `handleNextTurn` call: the `players`
updates `(player id, new timeline)` and the inserted next turn. -/
structure NextTurnResult where
  playerWrites : List (Nat × List Int)
  turnInsert : Option TurnInsert
deriving DecidableEq, Repr

/-- `players[(currentIdx + 1) % players.length]` where `currentIdx` is the
JS `findIndex` result (`-1` when the active player is not in the roster). -/
def nextPlayerOf (players : List Player) (activeId : Nat) : Option Player :=
  let currentIdx : Int :=
    match players.findIdx? (fun p => decide (p.id = activeId)) with
    | some i => (i : Int)
    | none => -1
  players.get? (((currentIdx + 1) % (players.length : Int)).toNat)

/-- The next-movie draw of the current game screen: filter the active pool
by the movie ids already used in any turn of this game, then pick a random
element; fall back to the full active pool when the filtered pool is empty.
`Math.floor(Math.random() * len)` is an index in `[0, len)`, modelled by
`k % len` for an arbitrary draw `k`. -/
def drawNextMovie (activeMovies : List Movie) (usedMovieIds : List Nat)
    (k : Nat) : Option Movie :=
  let pool := activeMovies.filter (fun m => decide (m.id ∉ usedMovieIds))
  if pool.length > 0 then pool.get? (k % pool.length)
  else activeMovies.get? (k % activeMovies.length)

/-- The used-movie reconstruction of the older game screen: for every year
of every player's timeline, the first active movie with that year. -/
def usedMovieIds006 (players : List Player) (activeMovies : List Movie) : List Nat :=
  players.flatMap (fun p => p.timeline.filterMap (fun year =>
    (activeMovies.find? (fun mv => decide (mv.year = year))).map Movie.id))

/-- `handleNextTurn` of the current game screen.  `pastTurnMovieIds` is the
result of the `turns` query for this game (it includes the current turn);
`k` models the random draw.  When the movie lookup fails the handler
returns early with no writes. -/
def handleNextTurn005 (gameId : Nat) (currentTurn : Turn) (players : List Player)
    (challenges : List ChallengeRec) (activeMovies : List Movie)
    (pastTurnMovieIds : List Nat) (k : Nat) : NextTurnResult :=
  match activeMovies.find? (fun m => decide (m.id = currentTurn.movie_id)) with
  | none => ⟨[], none⟩
  | some movie =>
    let activeTimeline := activeTimelineOf players currentTurn.active_player_id
    let winnerId := resolveWinner005 currentTurn challenges movie.year activeTimeline
    let playerWrites :=
      match winnerId with
      | some w =>
        match players.find? (fun p => decide (p.id = w)) with
        | some winner => [(w, sortAsc (winner.timeline ++ [movie.year]))]
        | none => []
      | none => []
    let nextPlayer := nextPlayerOf players currentTurn.active_player_id
    let nextMovie := drawNextMovie activeMovies pastTurnMovieIds k
    let turnInsert :=
      match nextPlayer, nextMovie with
      | some np, some nm => some ⟨gameId, np.id, nm.id, TurnStatus.drawing⟩
      | _, _ => none
    ⟨playerWrites, turnInsert⟩

/-- `handleNextTurn` of the older game screen: single-interval correctness
and the timeline-year draw exclusion. -/
def handleNextTurn006 (gameId : Nat) (currentTurn : Turn) (players : List Player)
    (challenges : List ChallengeRec) (activeMovies : List Movie)
    (k : Nat) : NextTurnResult :=
  match activeMovies.find? (fun m => decide (m.id = currentTurn.movie_id)) with
  | none => ⟨[], none⟩
  | some movie =>
    let activeTimeline := activeTimelineOf players currentTurn.active_player_id
    let winnerId := resolveWinner006 currentTurn challenges movie.year activeTimeline
    let playerWrites :=
      match winnerId with
      | some w =>
        match players.find? (fun p => decide (p.id = w)) with
        | some winner => [(w, sortAsc (winner.timeline ++ [movie.year]))]
        | none => []
      | none => []
    let nextPlayer := nextPlayerOf players currentTurn.active_player_id
    let nextMovie := drawNextMovie activeMovies (usedMovieIds006 players activeMovies) k
    let turnInsert :=
      match nextPlayer, nextMovie with
      | some np, some nm => some ⟨gameId, np.id, nm.id, TurnStatus.drawing⟩
      | _, _ => none
    ⟨playerWrites, turnInsert⟩

/-- The values the revealing screen derives from the current turn. -/
structure RevealOutcome where
  activeCorrect : Bool
  winningChallenger : Option ChallengeRec
  coinBackChallengers : List ChallengeRec
deriving DecidableEq, Repr

/-- The revealing-phase computation of the current game screen, including
the duplicate-year coin-back rule: when both adjacent intervals are valid
and the active player was correct, the challengers who committed to the
other valid interval (excluding the pending sentinel) are flagged. -/
def revealOutcome005 (currentTurn : Turn) (challenges : List ChallengeRec)
    (movieYear : Int) (timeline : List Int) : RevealOutcome :=
  let validIntervals :=
    (computeValidIntervals movieYear timeline).map (fun n : Nat => (n : Int))
  let activeCorrect :=
    match currentTurn.placed_interval with
    | some pi => decide (pi ∈ validIntervals)
    | none => false
  let winningChallenger :=
    if activeCorrect then none
    else challenges.find? (fun c =>
      decide (c.interval_index ≠ -1 ∧ c.interval_index ∈ validIntervals))
  let coinBackChallengers :=
    if validIntervals.length == 2 && activeCorrect then
      challenges.filter (fun c =>
        decide (c.interval_index ≠ -1) && decide (c.interval_index ∈ validIntervals) &&
          (match currentTurn.placed_interval with
           | some pi => decide (c.interval_index ≠ pi)
           | none => true))
    else []
  ⟨activeCorrect, winningChallenger, coinBackChallengers⟩

/-! ## Sync Loop — the poll cycle's turn-change detection -/

/-- The per-turn ephemeral client state of the game screen: the `useState`
values reset in the `if (turnChanged)` block of `poll` (animated values are
modelled by their numeric targets). -/
structure Ephemeral where
  trailerEnded : Bool
  readyToPlace : Bool
  userPaused : Bool
  hasReplayed : Bool
  selectedInterval : Option Int
  hasPassed : Bool
  myChallenge : Option ChallengeRec
  challengeInterval : Option Int
  challengeConfirmed : Bool
  localChallenges : List ChallengeRec
  cardAnimY : Int
  cardAnimScale : Int
  cardAnimOpacity : Int
  showReportDialog : Bool
  snackMessage : String
deriving DecidableEq, Repr

/-- The values written by the reset block of `poll` when a new turn starts. -/
def resetEphemeral : Ephemeral where
  trailerEnded := false
  readyToPlace := false
  userPaused := false
  hasReplayed := false
  selectedInterval := none
  hasPassed := false
  myChallenge := none
  challengeInterval := none
  challengeConfirmed := false
  localChallenges := []
  cardAnimY := 0
  cardAnimScale := 1
  cardAnimOpacity := 1
  showReportDialog := false
  snackMessage := ""

/-- Client-side state relevant to the poll cycle: the tracked turn
(`currentTurnRef`) and the ephemeral per-turn state. -/
structure ClientState where
  currentTurn : Option Turn
  eph : Ephemeral
deriving DecidableEq, Repr

/-- What one poll reads from the store: the most recent turn of the game
(`none` models a failed/empty read) and the challenges fetched for it. -/
structure Snapshot where
  latestTurn : Option Turn
  challenges : List ChallengeRec
deriving DecidableEq, Repr

/-- One cycle of `poll`: compare the polled turn with the tracked one,
update the tracked turn on any change, run the reset block only when the
turn id changed, then cache the fetched challenges and sync the client's
own challenge. -/
def pollStep (myPlayerId : Nat) (st : ClientState) (snap : Snapshot) : ClientState :=
  match snap.latestTurn with
  | none => st
  | some latestTurn =>
    let turnChanged :=
      match st.currentTurn with
      | none => true
      | some prev => decide (prev.id ≠ latestTurn.id)
    let statusChanged :=
      match st.currentTurn with
      | none => true
      | some prev => decide (prev.status ≠ latestTurn.status)
    let tracked := if turnChanged || statusChanged then some latestTurn else st.currentTurn
    let eph1 := if turnChanged then resetEphemeral else st.eph
    let mine := snap.challenges.find? (fun c => decide (c.challenger_id = myPlayerId))
    let eph2 := { eph1 with
      localChallenges := snap.challenges
      myChallenge := match mine with | some m => some m | none => eph1.myChallenge }
    ⟨tracked, eph2⟩

/-! ## Lobby Coordinator -/

/-- The relevant slice of the shared store for the lobby operations. -/
structure Store where
  games : List Game
  players : List Player
deriving DecidableEq, Repr

/-- The outcome of a join attempt: the store afterwards and the surfaced
error, if any. -/
structure JoinResult where
  store : Store
  error : Option String
deriving DecidableEq, Repr

/-- `handleJoinGame`: look up a lobby-status game by code with `.single()`
(which errors on zero or several rows), reject when the roster already has
8 players, otherwise insert one Player row (timeline defaults to `[]` per
the schema).  The source trims and uppercases the entered code and trims
the display name before use; `joinCode` and `displayName` stand for those
normalized values here, and a blank input (the source's
`!joinCode.trim() || !displayName.trim()` guard) returns without doing
anything. -/
def handleJoinGame (store : Store) (joinCode : String) (displayName : String)
    (newId : Nat) : JoinResult :=
  if joinCode = "" || displayName = "" then ⟨store, none⟩
  else
    match store.games.filter (fun g =>
        decide (g.game_code = joinCode ∧ g.status = GameStatus.lobby)) with
    | [foundGame] =>
      let count := (store.players.filter (fun p => decide (p.game_id = foundGame.id))).length
      if count ≥ 8 then ⟨store, some "Game is full (8 players max)"⟩
      else ⟨{ store with
              players := store.players ++ [⟨newId, foundGame.id, displayName, []⟩] },
            none⟩
    | _ => ⟨store, some "Game not found or already started"⟩

/-- The store writes performed by `handleStartGame`. -/
structure StartGameResult where
  playerWrites : List (Nat × List Int)
  gameWrite : Option GameStatus
  turnInsert : Option TurnInsert
  error : Option String
deriving DecidableEq, Repr

/-- `handleStartGame` (host only): require at least players+1 movies in the
shuffled pool, give each player the year of one distinct movie as their sole
starting timeline entry, pick the first turn's movie among the remaining
ones (`r` models the random pick), flip the game to `active` and insert the
first turn for the first joiner.  `pool` is the already-shuffled copy of the
active movie pool.  The fall-through case (`remaining` exhausted, possible
only with duplicate movie ids) models the runtime error after the timeline
writes have been issued. -/
def handleStartGame (localGame : Game) (localPlayers : List Player)
    (pool : List Movie) (r : Nat) : StartGameResult :=
  if localPlayers.length < 1 then ⟨[], none, none, none⟩
  else if pool.length < localPlayers.length + 1 then
    ⟨[], none, none, some "Not enough movies available"⟩
  else
    let assigned := pool.take localPlayers.length
    let playerWrites := (localPlayers.zip assigned).map (fun pm => (pm.1.id, [pm.2.year]))
    let usedIds := assigned.map Movie.id
    let remaining := pool.filter (fun m => decide (m.id ∉ usedIds))
    match localPlayers.get? 0, remaining.get? (r % remaining.length) with
    | some firstPlayer, some firstTurnMovie =>
      ⟨playerWrites, some GameStatus.active,
       some ⟨localGame.id, firstPlayer.id, firstTurnMovie.id, TurnStatus.drawing⟩, none⟩
    | _, _ => ⟨playerWrites, none, none, none⟩

/-! ## Join-code generation -/

/-- The character JS uses for a base-36 digit (`0`–`9` then `a`–`z`). -/
def base36Char (d : Nat) : Char :=
  if d < 10 then Char.ofNat (48 + d) else Char.ofNat (87 + d)

/-- `generateCode`: `Math.random().toString(36)` renders the drawn double
as `"0."` followed by the base-36 digits of its fractional part, trailing
zeros trimmed (just `"0"` for zero, giving an empty digit list);
`.substring(2, 8)` keeps the first six digit characters and
`.toUpperCase()` uppercases them.  The drawn double's digit expansion is
this model's input. -/
def generateCode (digits : List Nat) : String :=
  String.mk (((digits.take 6).map base36Char).map Char.toUpper)


/-! ## Theorems -/

theorem insertSorted_perm (y : Int) (l : List Int) :
    List.Perm (insertSorted y l) (y :: l) := by
  induction l with
  | nil => simp [insertSorted]
  | cons x xs ih =>
    by_cases h : y ≤ x
    · simp [insertSorted, h]
    · simp only [insertSorted, if_neg h]
      exact (ih.cons x).trans (List.Perm.swap y x xs)

theorem sortAsc_perm (l : List Int) : List.Perm (sortAsc l) l := by
  induction l with
  | nil => simp [sortAsc]
  | cons x xs ih =>
    simpa [sortAsc] using (insertSorted_perm x (sortAsc xs)).trans (ih.cons x)

theorem mem_sortAsc {y : Int} {l : List Int} : y ∈ sortAsc l ↔ y ∈ l :=
  (sortAsc_perm l).mem_iff

theorem insertSorted_sorted {l : List Int} (y : Int)
    (h : l.Sorted (· ≤ ·)) : (insertSorted y l).Sorted (· ≤ ·) := by
  induction l with
  | nil => simp [insertSorted]
  | cons x xs ih =>
    rw [List.sorted_cons] at h
    by_cases hyx : y ≤ x
    · rw [insertSorted, if_pos hyx, List.sorted_cons]
      refine ⟨?_, by rw [List.sorted_cons]; exact h⟩
      intro b hb
      rcases List.mem_cons.mp hb with rfl | hb
      · exact hyx
      · exact hyx.trans (h.1 b hb)
    · rw [insertSorted, if_neg hyx, List.sorted_cons]
      refine ⟨?_, ih h.2⟩
      intro b hb
      rcases List.mem_cons.mp ((insertSorted_perm y xs).mem_iff.mp hb) with rfl | hb
      · exact le_of_lt (lt_of_not_le hyx)
      · exact h.1 b hb

theorem sortAsc_sorted (l : List Int) : (sortAsc l).Sorted (· ≤ ·) := by
  induction l with
  | nil => simp [sortAsc, List.sorted_nil]
  | cons x xs ih => exact insertSorted_sorted x ih

theorem insertSorted_of_head_le {x : Int} {xs : List Int}
    (h : ∀ b ∈ xs, x ≤ b) : insertSorted x xs = x :: xs := by
  cases xs with
  | nil => rfl
  | cons z zs => rw [insertSorted, if_pos (h z (List.mem_cons_self z zs))]

theorem sortAsc_eq_self {l : List Int} (h : l.Sorted (· ≤ ·)) :
    sortAsc l = l := by
  induction l with
  | nil => rfl
  | cons x xs ih =>
    rw [List.sorted_cons] at h
    have : sortAsc (x :: xs) = insertSorted x (sortAsc xs) := rfl
    rw [this, ih h.2, insertSorted_of_head_le h.1]


theorem takeWhile_lt_spec (y : Int) :
    ∀ (l : List Int), l.Sorted (· ≤ ·) →
      (l.takeWhile (fun x => decide (x < y))).length ≤ l.length ∧
      ∀ j (hj : j < l.length),
        (j < (l.takeWhile (fun x => decide (x < y))).length →
          l.get ⟨j, hj⟩ < y) ∧
        ((l.takeWhile (fun x => decide (x < y))).length ≤ j →
          y ≤ l.get ⟨j, hj⟩) := by
  intro l
  induction l with
  | nil => intro _; exact ⟨Nat.le_refl 0, fun j hj => absurd hj (Nat.not_lt_zero j)⟩
  | cons x xs ih =>
    intro hs
    rw [List.sorted_cons] at hs
    obtain ⟨ihlen, ihspec⟩ := ih hs.2
    by_cases hxy : x < y
    · rw [List.takeWhile_cons, if_pos (by simpa using hxy)]
      refine ⟨by simpa using Nat.succ_le_succ ihlen, ?_⟩
      intro j hj
      match j with
      | 0 => exact ⟨fun _ => hxy, fun h => absurd h (by simp)⟩
      | Nat.succ j =>
        have hj' : j < xs.length := Nat.lt_of_succ_lt_succ hj
        refine ⟨fun h => ?_, fun h => ?_⟩
        · exact (ihspec j hj').1 (Nat.lt_of_succ_lt_succ (by simpa using h))
        · exact (ihspec j hj').2 (Nat.le_of_succ_le_succ (by simpa using h))
    · rw [List.takeWhile_cons, if_neg (by simpa using hxy)]
      refine ⟨Nat.zero_le _, ?_⟩
      intro j hj
      refine ⟨fun h => absurd h (by simp), fun _ => ?_⟩
      match j with
      | 0 => exact le_of_not_lt hxy
      | Nat.succ j =>
        have hj' : j < xs.length := Nat.lt_of_succ_lt_succ hj
        exact le_trans (le_of_not_lt hxy) (hs.1 _ (xs.get_mem j hj'))

theorem indexOf_eq_of_first {y : Int} :
    ∀ (l : List Int) (k : Nat) (hk : k < l.length),
      l.get ⟨k, hk⟩ = y →
      (∀ j (hj : j < l.length), j < k → l.get ⟨j, hj⟩ ≠ y) →
      l.indexOf y = k := by
  intro l
  induction l with
  | nil => intro k hk; exact absurd hk (Nat.not_lt_zero k)
  | cons x xs ih =>
    intro k hk heq hfirst
    match k with
    | 0 => exact List.indexOf_cons_eq xs heq
    | Nat.succ k =>
      have hx : x ≠ y := hfirst 0 (Nat.succ_pos _) (Nat.succ_pos _)
      rw [List.indexOf_cons_ne xs hx]
      have hk' : k < xs.length := Nat.lt_of_succ_lt_succ hk
      refine congrArg Nat.succ (ih k hk' heq ?_)
      intro j hj hjk
      exact hfirst (j + 1) (Nat.succ_lt_succ hj) (Nat.succ_lt_succ hjk)

theorem computeCorrectInterval_of_sorted {y : Int} {T : List Int}
    (hT : T.Sorted (· ≤ ·)) :
    computeCorrectInterval y T =
      (T.takeWhile (fun x => decide (x < y))).length := by
  rw [computeCorrectInterval, sortAsc_eq_self hT]

theorem computeValidIntervals_of_mem {y : Int} {T : List Int}
    (hT : T.Sorted (· ≤ ·)) (hy : y ∈ T) :
    computeValidIntervals y T = [T.indexOf y, T.indexOf y + 1] := by
  rw [computeValidIntervals]
  simp only [sortAsc_eq_self hT, if_pos hy]

theorem computeValidIntervals_of_not_mem {y : Int} {T : List Int}
    (hT : T.Sorted (· ≤ ·)) (hy : y ∉ T) :
    computeValidIntervals y T = [computeCorrectInterval y T] := by
  rw [computeValidIntervals]
  simp only [sortAsc_eq_self hT, if_neg hy]

/-- C2: on a sorted timeline, `computeCorrectInterval` returns the unique
index `i` such that every entry before `i` is strictly less than the year
and every entry from `i` onward is at least the year; and
`computeValidIntervals` returns `[k, k+1]` when the year occurs in the
timeline at (first) index `k`, and otherwise the one-element list
containing `computeCorrectInterval`. -/
theorem correctInterval_validIntervals_spec (y : Int) (T : List Int)
    (hT : T.Sorted (· ≤ ·)) :
    (computeCorrectInterval y T ≤ T.length ∧
     (∀ j (hj : j < T.length),
        j < computeCorrectInterval y T → T.get ⟨j, hj⟩ < y) ∧
     (∀ j (hj : j < T.length),
        computeCorrectInterval y T ≤ j → y ≤ T.get ⟨j, hj⟩) ∧
     (∀ i, i ≤ T.length →
        (∀ j (hj : j < T.length), j < i → T.get ⟨j, hj⟩ < y) →
        (∀ j (hj : j < T.length), i ≤ j → y ≤ T.get ⟨j, hj⟩) →
        i = computeCorrectInterval y T)) ∧
    (∀ k (hk : k < T.length), T.get ⟨k, hk⟩ = y →
       (∀ j (hj : j < T.length), j < k → T.get ⟨j, hj⟩ ≠ y) →
       computeValidIntervals y T = [k, k + 1]) ∧
    (y ∉ T → computeValidIntervals y T = [computeCorrectInterval y T]) := by
  obtain ⟨hlen, hspec⟩ := takeWhile_lt_spec y T hT
  rw [← computeCorrectInterval_of_sorted hT] at hlen hspec
  refine ⟨⟨hlen, fun j hj => (hspec j hj).1, fun j hj => (hspec j hj).2, ?_⟩,
          ?_, computeValidIntervals_of_not_mem hT⟩
  · intro i hi hbefore hafter
    rcases Nat.lt_trichotomy i (computeCorrectInterval y T) with hlt | heq | hgt
    · exfalso
      have hiT : i < T.length := Nat.lt_of_lt_of_le hlt hlen
      have h1 : T.get ⟨i, hiT⟩ < y := (hspec i hiT).1 hlt
      have h2 : y ≤ T.get ⟨i, hiT⟩ := hafter i hiT (Nat.le_refl i)
      exact absurd h1 (not_lt_of_le h2)
    · exact heq
    · exfalso
      have hciT : computeCorrectInterval y T < T.length :=
        Nat.lt_of_lt_of_le hgt hi
      have h1 : T.get ⟨computeCorrectInterval y T, hciT⟩ < y :=
        hbefore _ hciT hgt
      have h2 : y ≤ T.get ⟨computeCorrectInterval y T, hciT⟩ :=
        (hspec _ hciT).2 (Nat.le_refl _)
      exact absurd h1 (not_lt_of_le h2)
  · intro k hk heq hfirst
    have hy : y ∈ T := heq ▸ T.get_mem k hk
    rw [computeValidIntervals_of_mem hT hy, indexOf_eq_of_first T k hk heq hfirst]
/-- Witness: `correctInterval_validIntervals_spec` applied to year `1995`
and the sorted timeline `[1990, 1995]`, whose first occurrence of `1995`
is at index 1, yields `computeValidIntervals = [1, 2]`. -/
theorem correctInterval_validIntervals_spec_witness :
    computeValidIntervals 1995 [1990, 1995] = [1, 2] := by
  have h := correctInterval_validIntervals_spec 1995 [1990, 1995] (by decide)
  refine h.2.1 1 (by decide) (by decide) ?_
  intro j hj hjlt
  have hj0 : j = 0 := Nat.lt_one_iff.mp hjlt
  subst hj0
  show (1990 : Int) ≠ 1995
  decide

theorem find?_append_first {α : Type} (p : α → Bool) (l1 l2 : List α) (c : α)
    (hc : p c = true) (h1 : ∀ x ∈ l1, p x = false) :
    (l1 ++ c :: l2).find? p = some c := by
  induction l1 with
  | nil => rw [List.nil_append]; exact List.find?_cons_of_pos l2 hc
  | cons x xs ih =>
    have hx : p x = false := h1 x (List.mem_cons_self x xs)
    rw [List.cons_append, List.find?_cons_of_neg _ (by simp [hx])]
    exact ih (fun y hy => h1 y (List.mem_cons_of_mem x hy))

theorem find?_map_challenger_ne (challenges : List ChallengeRec)
    (p : ChallengeRec → Bool) (a : Nat)
    (hself : ∀ c ∈ challenges, c.challenger_id ≠ a) :
    (challenges.find? p).map ChallengeRec.challenger_id ≠ some a := by
  intro h
  match hf : challenges.find? p with
  | none => rw [hf] at h; exact Option.noConfusion h
  | some c =>
    rw [hf] at h
    have hc : c.challenger_id = a := Option.some.inj h
    exact hself c (List.mem_of_find?_eq_some hf) hc

theorem resolveWinner005_of_none {t : Turn} (ch : List ChallengeRec)
    (y : Int) (tl : List Int) (hp : t.placed_interval = none) :
    resolveWinner005 t ch y tl =
      (ch.find? (fun c =>
        decide (c.interval_index ≠ -1 ∧ c.interval_index ∈
          (computeValidIntervals y tl).map (fun n : Nat => (n : Int))))).map
        ChallengeRec.challenger_id := by
  unfold resolveWinner005
  rw [hp]
  rfl

theorem resolveWinner005_of_mem {t : Turn} (ch : List ChallengeRec)
    (y : Int) (tl : List Int) {pi : Int} (hp : t.placed_interval = some pi)
    (hmem : pi ∈ (computeValidIntervals y tl).map (fun n : Nat => (n : Int))) :
    resolveWinner005 t ch y tl = some t.active_player_id := by
  unfold resolveWinner005
  rw [hp]
  simp only [decide_eq_true hmem]
  rfl

theorem resolveWinner005_of_not_mem {t : Turn} (ch : List ChallengeRec)
    (y : Int) (tl : List Int) {pi : Int} (hp : t.placed_interval = some pi)
    (hmem : pi ∉ (computeValidIntervals y tl).map (fun n : Nat => (n : Int))) :
    resolveWinner005 t ch y tl =
      (ch.find? (fun c =>
        decide (c.interval_index ≠ -1 ∧ c.interval_index ∈
          (computeValidIntervals y tl).map (fun n : Nat => (n : Int))))).map
        ChallengeRec.challenger_id := by
  unfold resolveWinner005
  rw [hp]
  simp only [decide_eq_false hmem]
  rfl

theorem revealOutcome005_activeCorrect_of_none {t : Turn} (ch : List ChallengeRec)
    (y : Int) (tl : List Int) (hp : t.placed_interval = none) :
    (revealOutcome005 t ch y tl).activeCorrect = false := by
  unfold revealOutcome005
  rw [hp]

theorem revealOutcome005_activeCorrect_of_some {t : Turn} (ch : List ChallengeRec)
    (y : Int) (tl : List Int) {pi : Int} (hp : t.placed_interval = some pi) :
    (revealOutcome005 t ch y tl).activeCorrect =
      decide (pi ∈ (computeValidIntervals y tl).map (fun n : Nat => (n : Int))) := by
  unfold revealOutcome005
  rw [hp]

/-- C1 (amended): in the current game screen (`part_005`), both turn
resolution and the reveal computation judge the active player correct
exactly when the placed interval is a member of
`computeValidIntervals(movie.year, active timeline)` — so in the
duplicate-year case a placement at either of the two valid intervals counts
the active player as correct.  The older game screen (`part_006`) instead
judges by equality with the single-index `computeCorrectInterval` (see the
counterexample). -/
theorem activeCorrect_iff_mem_validIntervals (turn : Turn)
    (challenges : List ChallengeRec) (year : Int) (tl : List Int)
    (hself : ∀ c ∈ challenges, c.challenger_id ≠ turn.active_player_id) :
    (resolveWinner005 turn challenges year tl = some turn.active_player_id ↔
      ∃ pi, turn.placed_interval = some pi ∧
        pi ∈ (computeValidIntervals year tl).map (fun n : Nat => (n : Int))) ∧
    ((revealOutcome005 turn challenges year tl).activeCorrect = true ↔
      ∃ pi, turn.placed_interval = some pi ∧
        pi ∈ (computeValidIntervals year tl).map (fun n : Nat => (n : Int))) := by
  cases hp : turn.placed_interval with
  | none =>
    have e1 := resolveWinner005_of_none challenges year tl hp
    have e2 := revealOutcome005_activeCorrect_of_none challenges year tl hp
    constructor
    · constructor
      · intro h
        rw [e1] at h
        exact absurd h (find?_map_challenger_ne challenges _ _ hself)
      · rintro ⟨pi, hpi, -⟩
        exact Option.noConfusion hpi
    · constructor
      · intro h
        rw [e2] at h
        exact Bool.noConfusion h
      · rintro ⟨pi, hpi, -⟩
        exact Option.noConfusion hpi
  | some pi =>
    by_cases hmem : pi ∈ (computeValidIntervals year tl).map (fun n : Nat => (n : Int))
    · constructor
      · exact ⟨fun _ => ⟨pi, rfl, hmem⟩,
          fun _ => resolveWinner005_of_mem challenges year tl hp hmem⟩
      · refine ⟨fun _ => ⟨pi, rfl, hmem⟩, fun _ => ?_⟩
        rw [revealOutcome005_activeCorrect_of_some challenges year tl hp]
        exact decide_eq_true hmem
    · constructor
      · constructor
        · intro h
          exact absurd ((resolveWinner005_of_not_mem challenges year tl hp hmem) ▸ h)
            (find?_map_challenger_ne challenges _ _ hself)
        · rintro ⟨pi', hpi', hmem'⟩
          exact absurd ((Option.some.inj hpi').symm ▸ hmem') hmem
      · constructor
        · intro h
          rw [revealOutcome005_activeCorrect_of_some challenges year tl hp] at h
          exact absurd (of_decide_eq_true h) hmem
        · rintro ⟨pi', hpi', hmem'⟩
          exact absurd ((Option.some.inj hpi').symm ▸ hmem') hmem

/-- Witness: `activeCorrect_iff_mem_validIntervals` applied to the
duplicate-year turn (timeline `[1990, 1995]`, movie year 1995, placement at
interval 1) shows the active player (id 10) wins. -/
theorem activeCorrect_iff_mem_validIntervals_witness :
    resolveWinner005 ⟨7, 1, 10, 5, some 1, TurnStatus.revealing⟩ [] 1995 [1990, 1995] =
      some 10 :=
  ((activeCorrect_iff_mem_validIntervals ⟨7, 1, 10, 5, some 1, TurnStatus.revealing⟩
      [] 1995 [1990, 1995] (by simp)).1).mpr ⟨1, rfl, by decide⟩

/-- C1 counterexample: with timeline `[1990, 1995]` and movie year 1995 the
valid intervals are `[1, 2]`; the active player placed at interval 2 —
a member of the valid intervals — yet the older game screen's resolution
(`resolveWinner006`, judging by equality with `computeCorrectInterval`) finds
no winner, while the current screen's resolution awards the active player.
This refutes the claim that every resolution path judges by membership in
`validIntervals`. -/
theorem resolveWinner006_duplicate_year_cex :
    ((2 : Int) ∈ (computeValidIntervals 1995 [1990, 1995]).map (fun n : Nat => (n : Int))) ∧
    resolveWinner006 ⟨7, 1, 10, 5, some 2, TurnStatus.revealing⟩ [] 1995 [1990, 1995] =
      none ∧
    resolveWinner005 ⟨7, 1, 10, 5, some 2, TurnStatus.revealing⟩ [] 1995 [1990, 1995] =
      some 10 := by
  decide

theorem handleNextTurn005_of_no_movie (gameId : Nat) (turn : Turn)
    (players : List Player) (challenges : List ChallengeRec)
    (activeMovies : List Movie) (pastTurnMovieIds : List Nat) (k : Nat)
    (hmov : activeMovies.find? (fun m => decide (m.id = turn.movie_id)) = none) :
    handleNextTurn005 gameId turn players challenges activeMovies pastTurnMovieIds k =
      ⟨[], none⟩ := by
  unfold handleNextTurn005
  rw [hmov]

theorem handleNextTurn005_playerWrites_eq (gameId : Nat) (turn : Turn)
    (players : List Player) (challenges : List ChallengeRec)
    (activeMovies : List Movie) (pastTurnMovieIds : List Nat) (k : Nat)
    (movie : Movie)
    (hmov : activeMovies.find? (fun m => decide (m.id = turn.movie_id)) = some movie) :
    (handleNextTurn005 gameId turn players challenges activeMovies
        pastTurnMovieIds k).playerWrites =
      match resolveWinner005 turn challenges movie.year
          (activeTimelineOf players turn.active_player_id) with
      | some w =>
        match players.find? (fun p => decide (p.id = w)) with
        | some winner => [(w, sortAsc (winner.timeline ++ [movie.year]))]
        | none => []
      | none => [] := by
  unfold handleNextTurn005
  rw [hmov]

theorem handleNextTurn005_turnInsert_eq (gameId : Nat) (turn : Turn)
    (players : List Player) (challenges : List ChallengeRec)
    (activeMovies : List Movie) (pastTurnMovieIds : List Nat) (k : Nat)
    (movie : Movie)
    (hmov : activeMovies.find? (fun m => decide (m.id = turn.movie_id)) = some movie) :
    (handleNextTurn005 gameId turn players challenges activeMovies
        pastTurnMovieIds k).turnInsert =
      match nextPlayerOf players turn.active_player_id,
            drawNextMovie activeMovies pastTurnMovieIds k with
      | some np, some nm => some ⟨gameId, np.id, nm.id, TurnStatus.drawing⟩
      | _, _ => none := by
  unfold handleNextTurn005
  rw [hmov]

/-- C3: turn resolution selects the active player when their placed
interval is among the valid intervals, otherwise the first challenge whose
committed interval (excluding the `-1` sentinel) is valid, otherwise nobody
— and then no timeline is written; the winner's timeline is their previous
one with `movie.year` appended and re-sorted ascending. -/
theorem handleNextTurn_resolution_reward_spec
    (gameId : Nat) (turn : Turn) (players : List Player)
    (challenges : List ChallengeRec) (activeMovies : List Movie)
    (pastTurnMovieIds : List Nat) (k : Nat) (movie : Movie)
    (hmov : activeMovies.find? (fun m => decide (m.id = turn.movie_id)) = some movie) :
    ((∃ pi, turn.placed_interval = some pi ∧
        pi ∈ (computeValidIntervals movie.year
          (activeTimelineOf players turn.active_player_id)).map (fun n : Nat => (n : Int))) →
      resolveWinner005 turn challenges movie.year
        (activeTimelineOf players turn.active_player_id) = some turn.active_player_id) ∧
    ((∀ pi, turn.placed_interval = some pi →
        pi ∉ (computeValidIntervals movie.year
          (activeTimelineOf players turn.active_player_id)).map (fun n : Nat => (n : Int))) →
      ∀ l1 c l2, challenges = l1 ++ c :: l2 →
        (c.interval_index ≠ -1 ∧ c.interval_index ∈
          (computeValidIntervals movie.year
            (activeTimelineOf players turn.active_player_id)).map (fun n : Nat => (n : Int))) →
        (∀ c' ∈ l1, ¬(c'.interval_index ≠ -1 ∧ c'.interval_index ∈
          (computeValidIntervals movie.year
            (activeTimelineOf players turn.active_player_id)).map (fun n : Nat => (n : Int)))) →
        resolveWinner005 turn challenges movie.year
          (activeTimelineOf players turn.active_player_id) = some c.challenger_id) ∧
    ((∀ pi, turn.placed_interval = some pi →
        pi ∉ (computeValidIntervals movie.year
          (activeTimelineOf players turn.active_player_id)).map (fun n : Nat => (n : Int))) →
      (∀ c ∈ challenges, ¬(c.interval_index ≠ -1 ∧ c.interval_index ∈
        (computeValidIntervals movie.year
          (activeTimelineOf players turn.active_player_id)).map (fun n : Nat => (n : Int)))) →
      resolveWinner005 turn challenges movie.year
        (activeTimelineOf players turn.active_player_id) = none ∧
      (handleNextTurn005 gameId turn players challenges activeMovies
        pastTurnMovieIds k).playerWrites = []) ∧
    (∀ w p, resolveWinner005 turn challenges movie.year
        (activeTimelineOf players turn.active_player_id) = some w →
      players.find? (fun q => decide (q.id = w)) = some p →
      (handleNextTurn005 gameId turn players challenges activeMovies
        pastTurnMovieIds k).playerWrites =
        [(w, sortAsc (p.timeline ++ [movie.year]))] ∧
      (sortAsc (p.timeline ++ [movie.year])).Sorted (· ≤ ·) ∧
      List.Perm (sortAsc (p.timeline ++ [movie.year])) (p.timeline ++ [movie.year])) := by
  refine ⟨?_, ?_, ?_, ?_⟩
  · rintro ⟨pi, hp, hmem⟩
    exact resolveWinner005_of_mem challenges movie.year _ hp hmem
  · intro hnot l1 c l2 hch hc hl1
    subst hch
    have hfind : (l1 ++ c :: l2).find? (fun c =>
        decide (c.interval_index ≠ -1 ∧ c.interval_index ∈
          (computeValidIntervals movie.year
            (activeTimelineOf players turn.active_player_id)).map (fun n : Nat => (n : Int)))) =
        some c := by
      refine find?_append_first _ l1 l2 c (decide_eq_true hc) ?_
      intro x hx
      exact decide_eq_false (hl1 x hx)
    cases hp : turn.placed_interval with
    | none =>
      rw [resolveWinner005_of_none _ movie.year _ hp, hfind]
      rfl
    | some pi =>
      rw [resolveWinner005_of_not_mem _ movie.year _ hp (hnot pi hp), hfind]
      rfl
  · intro hnot hall
    have hfind : challenges.find? (fun c =>
        decide (c.interval_index ≠ -1 ∧ c.interval_index ∈
          (computeValidIntervals movie.year
            (activeTimelineOf players turn.active_player_id)).map (fun n : Nat => (n : Int)))) =
        none := by
      rw [List.find?_eq_none]
      intro x hx hTrue
      exact hall x hx (of_decide_eq_true hTrue)
    have hW : resolveWinner005 turn challenges movie.year
        (activeTimelineOf players turn.active_player_id) = none := by
      cases hp : turn.placed_interval with
      | none => rw [resolveWinner005_of_none _ movie.year _ hp, hfind]; rfl
      | some pi =>
        rw [resolveWinner005_of_not_mem _ movie.year _ hp (hnot pi hp), hfind]; rfl
    refine ⟨hW, ?_⟩
    rw [handleNextTurn005_playerWrites_eq gameId turn players challenges activeMovies
      pastTurnMovieIds k movie hmov, hW]
  · intro w p hW hfind
    refine ⟨?_, sortAsc_sorted _, sortAsc_perm _⟩
    rw [handleNextTurn005_playerWrites_eq gameId turn players challenges activeMovies
      pastTurnMovieIds k movie hmov, hW]
    dsimp only
    rw [hfind]

/-- Witness: `handleNextTurn_resolution_reward_spec` on the scenario of §8
of the spec — timeline `[1980, 1999]`, movie year 1990, active player
placed at interval 2 (wrong), a challenger committed interval 1 — makes
the challenger (id 20) win and appends 1990 to their timeline, sorted. -/
theorem handleNextTurn_resolution_reward_spec_witness :
    (handleNextTurn005 1 ⟨3, 1, 10, 5, some 2, TurnStatus.revealing⟩
        [⟨10, 1, "A", [1980, 1999]⟩, ⟨20, 1, "B", [1970]⟩]
        [⟨1, 3, 20, 1⟩] [⟨5, 1990⟩] [5] 0).playerWrites =
      [(20, sortAsc ([1970] ++ [1990]))] :=
  ((handleNextTurn_resolution_reward_spec 1 ⟨3, 1, 10, 5, some 2, TurnStatus.revealing⟩
      [⟨10, 1, "A", [1980, 1999]⟩, ⟨20, 1, "B", [1970]⟩]
      [⟨1, 3, 20, 1⟩] [⟨5, 1990⟩] [5] 0 ⟨5, 1990⟩ (by decide)).2.2.2
    20 ⟨20, 1, "B", [1970]⟩ (by decide) (by decide)).1

/-- C10: during resolution, at most one Player row is written, any written
row is the winner's, and when there is no winner (or no movie is found)
there is no Player write at all — every other player's timeline is
untouched. -/
theorem resolution_frame_spec (gameId : Nat) (turn : Turn)
    (players : List Player) (challenges : List ChallengeRec)
    (activeMovies : List Movie) (pastTurnMovieIds : List Nat) (k : Nat) :
    (handleNextTurn005 gameId turn players challenges activeMovies
      pastTurnMovieIds k).playerWrites.length ≤ 1 ∧
    (∀ w tl, (w, tl) ∈ (handleNextTurn005 gameId turn players challenges activeMovies
        pastTurnMovieIds k).playerWrites →
      ∃ movie, activeMovies.find? (fun m => decide (m.id = turn.movie_id)) = some movie ∧
        resolveWinner005 turn challenges movie.year
          (activeTimelineOf players turn.active_player_id) = some w) ∧
    (∀ movie, activeMovies.find? (fun m => decide (m.id = turn.movie_id)) = some movie →
      resolveWinner005 turn challenges movie.year
        (activeTimelineOf players turn.active_player_id) = none →
      (handleNextTurn005 gameId turn players challenges activeMovies
        pastTurnMovieIds k).playerWrites = []) := by
  cases hmov : activeMovies.find? (fun m => decide (m.id = turn.movie_id)) with
  | none =>
    rw [handleNextTurn005_of_no_movie gameId turn players challenges activeMovies
      pastTurnMovieIds k hmov]
    exact ⟨by simp, fun w tl h => absurd h (by simp), fun movie h => absurd h (by simp)⟩
  | some movie =>
    have hpw := handleNextTurn005_playerWrites_eq gameId turn players challenges
      activeMovies pastTurnMovieIds k movie hmov
    cases hW : resolveWinner005 turn challenges movie.year
        (activeTimelineOf players turn.active_player_id) with
    | none =>
      rw [hW] at hpw
      refine ⟨by rw [hpw]; exact Nat.zero_le 1, ?_, ?_⟩
      · intro w tl h
        rw [hpw] at h
        exact absurd h (by simp)
      · intro movie' hmov' _
        exact hpw
    | some w =>
      rw [hW] at hpw
      dsimp only at hpw
      have hthird : ∀ movie', some movie = some movie' →
          resolveWinner005 turn challenges movie'.year
            (activeTimelineOf players turn.active_player_id) = none →
          (handleNextTurn005 gameId turn players challenges activeMovies
            pastTurnMovieIds k).playerWrites = [] := by
        intro movie' hmov' hnone
        exfalso
        have hmm : movie' = movie := (Option.some.inj hmov').symm
        rw [hmm, hW] at hnone
        exact Option.noConfusion hnone
      cases hfind : players.find? (fun q => decide (q.id = w)) with
      | none =>
        rw [hfind] at hpw
        refine ⟨?_, ?_, hthird⟩
        · rw [hpw]; exact Nat.zero_le 1
        · intro w' tl h
          rw [hpw] at h
          exact absurd h (by simp)
      | some p =>
        rw [hfind] at hpw
        refine ⟨?_, ?_, hthird⟩
        · rw [hpw]; exact Nat.le_refl 1
        · intro w' tl h
          rw [hpw] at h
          have hmem := List.mem_singleton.mp h
          refine ⟨movie, rfl, ?_⟩
          rw [show w' = w from congrArg Prod.fst hmem]
          exact hW

/-- Witness: `resolution_frame_spec` on a no-winner turn (wrong placement,
no challenges) shows no Player row is written. -/
theorem resolution_frame_spec_witness :
    (handleNextTurn005 1 ⟨3, 1, 10, 2, some 0, TurnStatus.revealing⟩
        [⟨10, 1, "A", [2000]⟩] [] [⟨2, 2001⟩] [2] 0).playerWrites = [] :=
  (resolution_frame_spec 1 ⟨3, 1, 10, 2, some 0, TurnStatus.revealing⟩
      [⟨10, 1, "A", [2000]⟩] [] [⟨2, 2001⟩] [2] 0).2.2
    ⟨2, 2001⟩ (by decide) (by decide)

/-- C4 (amended): after resolution the next active player is the next
roster entry in join order after the current one, wrapping around, and the
new turn is inserted with status `drawing`.  In the current game screen the
movie is drawn from the active pool excluding the movie ids already used in
any turn of the game — any member of that pool can be drawn — and the full
active pool is used only when the exclusion empties the pool.  (The older
game screen `part_006` instead excludes movies whose year occurs in some
player's timeline — see the counterexample.) -/
theorem handleNextTurn_advancement_spec
    (gameId : Nat) (turn : Turn) (players : List Player)
    (challenges : List ChallengeRec) (activeMovies : List Movie)
    (pastTurnMovieIds : List Nat) (k : Nat) (i : Nat)
    (hidx : players.findIdx? (fun p => decide (p.id = turn.active_player_id)) = some i) :
    (nextPlayerOf players turn.active_player_id =
      players.get? ((i + 1) % players.length)) ∧
    (activeMovies.filter (fun m => decide (m.id ∉ pastTurnMovieIds)) ≠ [] →
      ∃ nm, drawNextMovie activeMovies pastTurnMovieIds k = some nm ∧
        nm ∈ activeMovies ∧ nm.id ∉ pastTurnMovieIds) ∧
    (activeMovies.filter (fun m => decide (m.id ∉ pastTurnMovieIds)) = [] →
      drawNextMovie activeMovies pastTurnMovieIds k =
        activeMovies.get? (k % activeMovies.length)) ∧
    (∀ m ∈ activeMovies.filter (fun m => decide (m.id ∉ pastTurnMovieIds)),
      ∃ j, drawNextMovie activeMovies pastTurnMovieIds j = some m) ∧
    (∀ movie np nm,
      activeMovies.find? (fun m => decide (m.id = turn.movie_id)) = some movie →
      nextPlayerOf players turn.active_player_id = some np →
      drawNextMovie activeMovies pastTurnMovieIds k = some nm →
      (handleNextTurn005 gameId turn players challenges activeMovies
        pastTurnMovieIds k).turnInsert =
        some ⟨gameId, np.id, nm.id, TurnStatus.drawing⟩) := by
  refine ⟨?_, ?_, ?_, ?_, ?_⟩
  · have hcast : (((i : Int) + 1) % (players.length : Int)).toNat =
        (i + 1) % players.length := by
      have h1 : ((i : Int) + 1) % (players.length : Int) =
          (((i + 1) % players.length : Nat) : Int) := by
        rw [Int.ofNat_emod]
        norm_cast
      rw [h1, Int.toNat_ofNat]
    unfold nextPlayerOf
    rw [hidx]
    dsimp only
    rw [hcast]
  · intro hne
    have hlen : 0 <
        (activeMovies.filter (fun m => decide (m.id ∉ pastTurnMovieIds))).length :=
      List.length_pos.mpr hne
    have hk : k % (activeMovies.filter
        (fun m => decide (m.id ∉ pastTurnMovieIds))).length <
        (activeMovies.filter (fun m => decide (m.id ∉ pastTurnMovieIds))).length :=
      Nat.mod_lt _ hlen
    refine ⟨(activeMovies.filter (fun m => decide (m.id ∉ pastTurnMovieIds))).get
        ⟨_, hk⟩, ?_, ?_, ?_⟩
    · unfold drawNextMovie
      rw [if_pos hlen]
      exact List.get?_eq_get hk
    · exact (List.mem_filter.mp ((activeMovies.filter
        (fun m => decide (m.id ∉ pastTurnMovieIds))).get_mem _ hk)).1
    · exact of_decide_eq_true (List.mem_filter.mp ((activeMovies.filter
        (fun m => decide (m.id ∉ pastTurnMovieIds))).get_mem _ hk)).2
  · intro hempty
    unfold drawNextMovie
    rw [hempty]
    rfl
  · intro m hm
    obtain ⟨⟨j, hj⟩, hget⟩ := List.mem_iff_get.mp hm
    refine ⟨j, ?_⟩
    unfold drawNextMovie
    rw [if_pos (Nat.lt_of_le_of_lt (Nat.zero_le _) hj)]
    rw [Nat.mod_eq_of_lt hj]
    rw [← hget]
    exact List.get?_eq_get hj
  · intro movie np nm hmov hnp hnm
    rw [handleNextTurn005_turnInsert_eq gameId turn players challenges activeMovies
      pastTurnMovieIds k movie hmov, hnp, hnm]

/-- Witness: `handleNextTurn_advancement_spec` on a two-player roster with
the first player active yields the second player as next (index `(0+1) % 2`). -/
theorem handleNextTurn_advancement_spec_witness :
    nextPlayerOf [⟨10, 1, "A", [2000]⟩, ⟨11, 1, "B", [1999]⟩] 10 =
      [(⟨10, 1, "A", [2000]⟩ : Player), ⟨11, 1, "B", [1999]⟩].get? ((0 + 1) % 2) :=
  (handleNextTurn_advancement_spec 1 ⟨3, 1, 10, 2, some 0, TurnStatus.revealing⟩
    [⟨10, 1, "A", [2000]⟩, ⟨11, 1, "B", [1999]⟩] [] [⟨2, 2001⟩] [2] 0 0 (by decide)).1

/-- C4 counterexample: the older game screen redraws a movie that was
already used in a turn.  Active movies are `M1 = ⟨1, 2000⟩` and
`M2 = ⟨2, 2001⟩`; the current turn uses `M2` and nobody wins it, and the
sole player's timeline holds the year 2000 (movie `M1`).  The turns-based
exclusion pool of the claim is `[M1]` (nonempty), yet `part_006` — which
excludes by timeline years — draws `M2`, the current turn's own movie,
again. -/
theorem handleNextTurn006_draw_divergence_cex :
    (handleNextTurn006 1 ⟨3, 1, 10, 2, some 0, TurnStatus.revealing⟩
        [⟨10, 1, "A", [2000]⟩] [] [⟨1, 2000⟩, ⟨2, 2001⟩] 0).turnInsert =
      some ⟨1, 10, 2, TurnStatus.drawing⟩ ∧
    ([⟨1, 2000⟩, ⟨2, 2001⟩] : List Movie).filter
        (fun m => decide (m.id ∉ ([2] : List Nat))) = [⟨1, 2000⟩] := by
  decide

theorem handleNextTurn006_of_no_movie (gameId : Nat) (turn : Turn)
    (players : List Player) (challenges : List ChallengeRec)
    (activeMovies : List Movie) (k : Nat)
    (hmov : activeMovies.find? (fun m => decide (m.id = turn.movie_id)) = none) :
    handleNextTurn006 gameId turn players challenges activeMovies k = ⟨[], none⟩ := by
  unfold handleNextTurn006
  rw [hmov]

theorem handleNextTurn006_playerWrites_eq (gameId : Nat) (turn : Turn)
    (players : List Player) (challenges : List ChallengeRec)
    (activeMovies : List Movie) (k : Nat) (movie : Movie)
    (hmov : activeMovies.find? (fun m => decide (m.id = turn.movie_id)) = some movie) :
    (handleNextTurn006 gameId turn players challenges activeMovies k).playerWrites =
      match resolveWinner006 turn challenges movie.year
          (activeTimelineOf players turn.active_player_id) with
      | some w =>
        match players.find? (fun p => decide (p.id = w)) with
        | some winner => [(w, sortAsc (winner.timeline ++ [movie.year]))]
        | none => []
      | none => [] := by
  unfold handleNextTurn006
  rw [hmov]

theorem handleStartGame_playerWrites_eq (g : Game) (lps : List Player)
    (pool : List Movie) (r : Nat) (h1 : ¬lps.length < 1)
    (h2 : ¬pool.length < lps.length + 1) :
    (handleStartGame g lps pool r).playerWrites =
      (lps.zip (pool.take lps.length)).map (fun pm => (pm.1.id, [pm.2.year])) := by
  unfold handleStartGame
  rw [if_neg h1, if_neg h2]
  dsimp only
  split <;> rfl

/-- C5: every timeline persisted by a timeline-writing operation is sorted
ascending — game start writes one-element timelines, and both resolution
variants write the winner's previous timeline with the movie year appended
and re-sorted ascending. -/
theorem timeline_writes_sorted
    (g : Game) (lps : List Player) (pool : List Movie) (r : Nat)
    (gameId : Nat) (turn : Turn) (players : List Player)
    (challenges : List ChallengeRec) (activeMovies : List Movie)
    (pastTurnMovieIds : List Nat) (k : Nat) :
    (∀ w ∈ (handleStartGame g lps pool r).playerWrites,
      (∃ y, w.2 = [y]) ∧ w.2.Sorted (· ≤ ·)) ∧
    (∀ w ∈ (handleNextTurn005 gameId turn players challenges activeMovies
        pastTurnMovieIds k).playerWrites, w.2.Sorted (· ≤ ·)) ∧
    (∀ w ∈ (handleNextTurn006 gameId turn players challenges activeMovies
        k).playerWrites, w.2.Sorted (· ≤ ·)) := by
  refine ⟨?_, ?_, ?_⟩
  · intro w hw
    by_cases h1 : lps.length < 1
    · unfold handleStartGame at hw
      rw [if_pos h1] at hw
      exact absurd hw (List.not_mem_nil w)
    by_cases h2 : pool.length < lps.length + 1
    · unfold handleStartGame at hw
      rw [if_neg h1, if_pos h2] at hw
      exact absurd hw (List.not_mem_nil w)
    rw [handleStartGame_playerWrites_eq g lps pool r h1 h2] at hw
    obtain ⟨pm, hpm, heq⟩ := List.mem_map.mp hw
    rw [← heq]
    exact ⟨⟨pm.2.year, rfl⟩, List.sorted_singleton _⟩
  · intro w hw
    cases hmov : activeMovies.find? (fun m => decide (m.id = turn.movie_id)) with
    | none =>
      rw [handleNextTurn005_of_no_movie gameId turn players challenges activeMovies
        pastTurnMovieIds k hmov] at hw
      exact absurd hw (List.not_mem_nil w)
    | some movie =>
      rw [handleNextTurn005_playerWrites_eq gameId turn players challenges activeMovies
        pastTurnMovieIds k movie hmov] at hw
      cases hW : resolveWinner005 turn challenges movie.year
          (activeTimelineOf players turn.active_player_id) with
      | none =>
        rw [hW] at hw
        exact absurd hw (List.not_mem_nil w)
      | some ww =>
        rw [hW] at hw
        dsimp only at hw
        cases hfind : players.find? (fun p => decide (p.id = ww)) with
        | none =>
          rw [hfind] at hw
          exact absurd hw (List.not_mem_nil w)
        | some p =>
          rw [hfind] at hw
          rw [List.mem_singleton.mp hw]
          exact sortAsc_sorted _
  · intro w hw
    cases hmov : activeMovies.find? (fun m => decide (m.id = turn.movie_id)) with
    | none =>
      rw [handleNextTurn006_of_no_movie gameId turn players challenges activeMovies
        k hmov] at hw
      exact absurd hw (List.not_mem_nil w)
    | some movie =>
      rw [handleNextTurn006_playerWrites_eq gameId turn players challenges activeMovies
        k movie hmov] at hw
      cases hW : resolveWinner006 turn challenges movie.year
          (activeTimelineOf players turn.active_player_id) with
      | none =>
        rw [hW] at hw
        exact absurd hw (List.not_mem_nil w)
      | some ww =>
        rw [hW] at hw
        dsimp only at hw
        cases hfind : players.find? (fun p => decide (p.id = ww)) with
        | none =>
          rw [hfind] at hw
          exact absurd hw (List.not_mem_nil w)
        | some p =>
          rw [hfind] at hw
          rw [List.mem_singleton.mp hw]
          exact sortAsc_sorted _

/-- Witness: `timeline_writes_sorted` on a resolved turn whose challenger
(id 20, timeline `[1970]`) wins year 1990 — the persisted timeline is
sorted. -/
theorem timeline_writes_sorted_witness :
    List.Sorted (· ≤ ·) ((20, sortAsc ([1970] ++ [1990])) : Nat × List Int).2 :=
  (timeline_writes_sorted ⟨1, "ABC123", GameStatus.lobby⟩ [] [] 0 1
      ⟨3, 1, 10, 5, some 2, TurnStatus.revealing⟩
      [⟨10, 1, "A", [1980, 1999]⟩, ⟨20, 1, "B", [1970]⟩]
      [⟨1, 3, 20, 1⟩] [⟨5, 1990⟩] [5] 0).2.1
    (20, sortAsc ([1970] ++ [1990])) (by decide)

/-- C6: a poll cycle resets the per-turn ephemeral state exactly when the
polled turn's id differs from the tracked one.  A poll that sees the same
turn id (a status-only change) leaves every client-local ephemeral field
untouched; a poll that sees a new turn id resets the whole ephemeral state
(the challenge cache is then refilled from the same snapshot's fetch) and
tracks the new turn; a poll with no turn row changes nothing.  Folding
`pollStep` over a snapshot sequence therefore resets exactly once per id
change. -/
theorem poll_reset_iff_turn_change (myId : Nat) (st : ClientState) (snap : Snapshot) :
    (∀ t prev, snap.latestTurn = some t → st.currentTurn = some prev → prev.id = t.id →
      ((pollStep myId st snap).eph.trailerEnded = st.eph.trailerEnded ∧
       (pollStep myId st snap).eph.readyToPlace = st.eph.readyToPlace ∧
       (pollStep myId st snap).eph.userPaused = st.eph.userPaused ∧
       (pollStep myId st snap).eph.hasReplayed = st.eph.hasReplayed ∧
       (pollStep myId st snap).eph.selectedInterval = st.eph.selectedInterval ∧
       (pollStep myId st snap).eph.hasPassed = st.eph.hasPassed ∧
       (pollStep myId st snap).eph.challengeInterval = st.eph.challengeInterval ∧
       (pollStep myId st snap).eph.challengeConfirmed = st.eph.challengeConfirmed ∧
       (pollStep myId st snap).eph.cardAnimY = st.eph.cardAnimY ∧
       (pollStep myId st snap).eph.cardAnimScale = st.eph.cardAnimScale ∧
       (pollStep myId st snap).eph.cardAnimOpacity = st.eph.cardAnimOpacity ∧
       (pollStep myId st snap).eph.showReportDialog = st.eph.showReportDialog ∧
       (pollStep myId st snap).eph.snackMessage = st.eph.snackMessage)) ∧
    (∀ t, snap.latestTurn = some t →
      (∀ prev, st.currentTurn = some prev → prev.id ≠ t.id) →
      (pollStep myId st snap).eph = { resetEphemeral with
        localChallenges := snap.challenges
        myChallenge := snap.challenges.find? (fun c => decide (c.challenger_id = myId)) } ∧
      (pollStep myId st snap).currentTurn = some t) ∧
    (snap.latestTurn = none → pollStep myId st snap = st) := by
  refine ⟨?_, ?_, ?_⟩
  · intro t prev hsnap hcur hid
    unfold pollStep
    rw [hsnap, hcur]
    dsimp only
    rw [show decide (prev.id ≠ t.id) = false from decide_eq_false (fun hne => hne hid)]
    exact ⟨rfl, rfl, rfl, rfl, rfl, rfl, rfl, rfl, rfl, rfl, rfl, rfl, rfl⟩
  · intro t hsnap hne
    unfold pollStep
    rw [hsnap]
    cases hcur : st.currentTurn with
    | none =>
      constructor
      · cases hm : snap.challenges.find? (fun c => decide (c.challenger_id = myId)) <;> rfl
      · rfl
    | some prev =>
      dsimp only
      rw [show decide (prev.id ≠ t.id) = true from decide_eq_true (hne prev hcur)]
      constructor
      · cases hm : snap.challenges.find? (fun c => decide (c.challenger_id = myId)) <;> rfl
      · rfl
  · intro hsnap
    unfold pollStep
    rw [hsnap]

/-- Witness: `poll_reset_iff_turn_change` on a poll that sees a new turn id
(2, after tracking 1) resets the ephemeral state (here: a previously
selected interval is cleared; no challenges in the snapshot). -/
theorem poll_reset_iff_turn_change_witness :
    (pollStep 9 ⟨some ⟨1, 1, 10, 5, none, TurnStatus.challenging⟩,
        { resetEphemeral with selectedInterval := some 3 }⟩
      ⟨some ⟨2, 1, 11, 6, none, TurnStatus.drawing⟩, []⟩).eph =
      { resetEphemeral with
        localChallenges := ([] : List ChallengeRec)
        myChallenge := ([] : List ChallengeRec).find?
          (fun c => decide (c.challenger_id = 9)) } :=
  ((poll_reset_iff_turn_change 9
      ⟨some ⟨1, 1, 10, 5, none, TurnStatus.challenging⟩,
        { resetEphemeral with selectedInterval := some 3 }⟩
      ⟨some ⟨2, 1, 11, 6, none, TurnStatus.drawing⟩, []⟩).2.1
    ⟨2, 1, 11, 6, none, TurnStatus.drawing⟩ rfl
    (fun prev hp => by cases hp; decide)).1

/-- C7: joining fails — with no store write — when the code does not
resolve to exactly one lobby-status game (`.single()` errors on zero or
several rows) or when the roster already has 8 players; on success exactly
one Player row is appended. -/
theorem handleJoinGame_spec (store : Store) (joinCode displayName : String)
    (newId : Nat) (hjc : joinCode ≠ "") (hdn : displayName ≠ "") :
    (∀ g, store.games.filter (fun g' =>
        decide (g'.game_code = joinCode ∧ g'.status = GameStatus.lobby)) = [g] →
      ((store.players.filter (fun p => decide (p.game_id = g.id))).length ≥ 8 →
        handleJoinGame store joinCode displayName newId =
          ⟨store, some "Game is full (8 players max)"⟩) ∧
      (¬(store.players.filter (fun p => decide (p.game_id = g.id))).length ≥ 8 →
        handleJoinGame store joinCode displayName newId =
          ⟨⟨store.games, store.players ++ [⟨newId, g.id, displayName, []⟩]⟩, none⟩)) ∧
    (∀ gs, store.games.filter (fun g' =>
        decide (g'.game_code = joinCode ∧ g'.status = GameStatus.lobby)) = gs →
      (∀ g, gs ≠ [g]) →
      handleJoinGame store joinCode displayName newId =
        ⟨store, some "Game not found or already started"⟩) := by
  have hcond : ¬(joinCode = "" || displayName = "") := by
    simp only [Bool.or_eq_true, decide_eq_true_eq]
    rintro (h | h)
    · exact hjc h
    · exact hdn h
  constructor
  · intro g hfilter
    constructor
    · intro h8
      unfold handleJoinGame
      rw [if_neg hcond, hfilter]
      dsimp only
      rw [if_pos h8]
    · intro h8
      unfold handleJoinGame
      rw [if_neg hcond, hfilter]
      dsimp only
      rw [if_neg h8]
  · intro gs hfilter hnot
    unfold handleJoinGame
    rw [if_neg hcond, hfilter]
    match gs, hnot with
    | [], _ => rfl
    | [g], hnot => exact absurd rfl (hnot g)
    | g1 :: g2 :: rest, _ => rfl

/-- Witness: `handleJoinGame_spec` on a store holding one lobby game with
code `ABC123` and no players — joining succeeds and appends exactly the one
new Player row. -/
theorem handleJoinGame_spec_witness :
    handleJoinGame ⟨[⟨1, "ABC123", GameStatus.lobby⟩], []⟩ "ABC123" "Zoe" 5 =
      ⟨⟨[⟨1, "ABC123", GameStatus.lobby⟩], [⟨5, 1, "Zoe", []⟩]⟩, none⟩ :=
  ((handleJoinGame_spec ⟨[⟨1, "ABC123", GameStatus.lobby⟩], []⟩ "ABC123" "Zoe" 5
      (by decide) (by decide)).1 ⟨1, "ABC123", GameStatus.lobby⟩ (by decide)).2
    (by decide)

/-- C8: when the valid intervals have two members (the duplicate-year case,
`[d, d+1]`) and the active player placed at one of them, exactly the
challengers who committed to the other valid interval are flagged for the
coin-back outcome; when the active player was wrong, or the valid intervals
are a single interval, no challenger is flagged. -/
theorem coinBackChallengers_spec (turn : Turn) (challenges : List ChallengeRec)
    (year : Int) (tl : List Int) :
    (∀ pi (d : Nat), turn.placed_interval = some pi →
      (computeValidIntervals year tl).map (fun n : Nat => (n : Int)) =
        [(d : Int), (d : Int) + 1] →
      pi ∈ (computeValidIntervals year tl).map (fun n : Nat => (n : Int)) →
      (revealOutcome005 turn challenges year tl).coinBackChallengers =
        challenges.filter (fun c => decide (c.interval_index =
          if pi = (d : Int) then (d : Int) + 1 else (d : Int)))) ∧
    ((revealOutcome005 turn challenges year tl).activeCorrect = false →
      (revealOutcome005 turn challenges year tl).coinBackChallengers = []) ∧
    ((computeValidIntervals year tl).length ≠ 2 →
      (revealOutcome005 turn challenges year tl).coinBackChallengers = []) := by
  refine ⟨?_, ?_, ?_⟩
  · intro pi d hp hV hmem
    have hmem' : pi ∈ [(d : Int), (d : Int) + 1] := hV ▸ hmem
    unfold revealOutcome005
    rw [hp]
    dsimp only
    rw [hV, decide_eq_true hmem']
    rw [show (([(d : Int), (d : Int) + 1].length == 2) && true) = true from rfl]
    rw [if_pos rfl]
    apply List.filter_congr
    intro c _
    have key : ((c.interval_index ≠ -1 ∧ c.interval_index ∈ [(d : Int), (d : Int) + 1]) ∧
        c.interval_index ≠ pi) ↔
        (c.interval_index = if pi = (d : Int) then (d : Int) + 1 else (d : Int)) := by
      have hpd : pi = (d : Int) ∨ pi = (d : Int) + 1 := by simpa using hmem'
      simp only [List.mem_cons, List.mem_singleton, List.not_mem_nil, or_false]
      split_ifs with h
      · omega
      · omega
    rw [← Bool.decide_and, ← Bool.decide_and]
    exact decide_eq_decide.mpr key
  · intro h
    cases hp : turn.placed_interval with
    | none =>
      unfold revealOutcome005
      rw [hp]
      dsimp only
      simp only [Bool.and_false, Bool.false_eq_true, if_false]
    | some pi =>
      rw [revealOutcome005_activeCorrect_of_some challenges year tl hp] at h
      unfold revealOutcome005
      rw [hp]
      dsimp only
      rw [h]
      simp only [Bool.and_false, Bool.false_eq_true, if_false]
  · intro hlen
    have hlen' : (((computeValidIntervals year tl).map (fun n : Nat => (n : Int))).length == 2) =
        false := by
      rw [List.length_map]
      exact beq_eq_false_iff_ne.mpr hlen
    cases hp : turn.placed_interval with
    | none =>
      unfold revealOutcome005
      rw [hp]
      dsimp only
      simp only [Bool.and_false, Bool.false_eq_true, if_false]
    | some pi =>
      unfold revealOutcome005
      rw [hp]
      dsimp only
      rw [hlen']
      simp only [Bool.false_and, Bool.false_eq_true, if_false]

/-- Witness: `coinBackChallengers_spec` on the duplicate-year turn of §8 —
timeline `[1990, 1995]`, movie year 1995, active player placed at interval
1, one challenger committed interval 2 — flags exactly the challengers who
committed the other valid interval (2). -/
theorem coinBackChallengers_spec_witness :
    (revealOutcome005 ⟨3, 1, 10, 5, some 1, TurnStatus.revealing⟩
        [⟨1, 3, 20, 2⟩] 1995 [1990, 1995]).coinBackChallengers =
      List.filter (fun c => decide (c.interval_index =
        if (1 : Int) = ((1 : Nat) : Int) then ((1 : Nat) : Int) + 1 else ((1 : Nat) : Int)))
        [⟨1, 3, 20, 2⟩] :=
  (coinBackChallengers_spec ⟨3, 1, 10, 5, some 1, TurnStatus.revealing⟩
      [⟨1, 3, 20, 2⟩] 1995 [1990, 1995]).1 1 1 rfl (by decide) (by decide)

/-- C9 (amended): every generated join code has AT MOST six characters,
each an uppercase alphanumeric character (`0`–`9` or `A`–`Z`); the length
equals six only when the drawn double's trimmed base-36 expansion has at
least six fractional digits, and shorter codes occur for doubles with a
short expansion. -/
theorem generateCode_shape (digits : List Nat) (h : ∀ d ∈ digits, d < 36) :
    (generateCode digits).length = min 6 digits.length ∧
    ∀ c ∈ (generateCode digits).data,
      (('0' ≤ c ∧ c ≤ '9') ∨ ('A' ≤ c ∧ c ≤ 'Z')) := by
  constructor
  · show (((digits.take 6).map base36Char).map Char.toUpper).length = min 6 digits.length
    rw [List.length_map, List.length_map, List.length_take]
  · intro c hc
    have hc' : c ∈ ((digits.take 6).map base36Char).map Char.toUpper := hc
    obtain ⟨c1, hc1, rfl⟩ := List.mem_map.mp hc'
    obtain ⟨d, hd, rfl⟩ := List.mem_map.mp hc1
    have hd36 : d < 36 := h d (List.mem_of_mem_take hd)
    interval_cases d <;> decide

/-- Witness: `generateCode_shape` on a seven-digit expansion yields a
six-character code. -/
theorem generateCode_shape_witness :
    (generateCode [10, 11, 12, 13, 14, 15, 16]).length =
      min 6 ([10, 11, 12, 13, 14, 15, 16] : List Nat).length :=
  (generateCode_shape [10, 11, 12, 13, 14, 15, 16] (by decide)).1

/-- C9 counterexample: `Math.random()` can return exactly 0.5 (a
representable double), whose base-36 rendering is `"0.i"`; the generated
code is then the single character `"I"`, not a six-character string,
refuting the fixed-length part of the claim. -/
theorem generateCode_not_fixed_length_cex :
    generateCode [18] = "I" ∧ (generateCode [18]).length = 1 ∧
    (generateCode [18]).length ≠ 6 := by
  refine ⟨rfl, rfl, by decide⟩

end Cinescenes
